/-
Verification of the filter-and-dedupe pipeline with incremental CSV
persistence of a Reddit scraper (reddit-scraper.py).

The Python source is shallowly embedded: pure helper functions become Lean
functions, the record dictionaries become association lists or structures,
the CSV file on disk becomes a list of rows, and exceptions become
`Except`/`Option` results.
-/
import Mathlib

namespace RedditScraper

/-! ## Configuration

Subset of the module-level CONFIG dict that the verified logic reads:
keyword list, inclusive date window (epoch seconds), minimum upvotes. -/

structure Config where
  keywords : List String
  start_date : Int
  end_date : Int
  min_upvotes : Int
deriving Repr, DecidableEq

/-! ## String containment (Python's `sub in big`) -/

/-- `hasPre a b` decides whether `a` is a prefix of the character list `b`. -/
def hasPre : List Char → List Char → Bool
  | [], _ => true
  | _ :: _, [] => false
  | x :: xs, y :: ys => x == y && hasPre xs ys

/-- `hasSub a b` decides whether `a` occurs as a contiguous sublist of `b`,
modelling Python's substring operator `a in b` on the code points. -/
def hasSub (a : List Char) : List Char → Bool
  | [] => a.isEmpty
  | y :: ys => hasPre a (y :: ys) || hasSub a ys

/-- Python `sub in big` on strings. -/
def strContains (big sub : String) : Bool :=
  hasSub sub.toList big.toList

/-- Python `s.lower()`, characterwise lowercasing. -/
def pyToLower (s : String) : String :=
  ⟨s.toList.map Char.toLower⟩

/-! ## Predicate filters (source lines 212-256) -/

/-- `matches_keywords` from the source: false on empty text, otherwise a
case-insensitive substring test of each keyword against the text. -/
def matches_keywords (text : String) (keywords : List String) : Bool :=
  if text = "" then false
  else
    let text_lower := pyToLower text
    keywords.any fun keyword => strContains text_lower (pyToLower keyword)

/-- `is_in_date_range` from the source: inclusive bounds check. -/
def is_in_date_range (cfg : Config) (post_timestamp : Int) : Bool :=
  decide (cfg.start_date ≤ post_timestamp ∧ post_timestamp ≤ cfg.end_date)

/-- `meets_upvote_threshold` from the source: `score >= min_upvotes`. -/
def meets_upvote_threshold (cfg : Config) (score : Int) : Bool :=
  decide (cfg.min_upvotes ≤ score)

/-! ## Support lemmas about `hasSub` -/

theorem hasPre_iff (a b : List Char) : hasPre a b = true ↔ ∃ t, b = a ++ t := by
  induction a generalizing b with
  | nil => simp [hasPre]
  | cons x xs ih =>
    cases b with
    | nil => simp [hasPre]
    | cons y ys =>
      simp only [hasPre, Bool.and_eq_true, beq_iff_eq, ih, List.cons_append,
        List.cons.injEq]
      constructor
      · rintro ⟨rfl, t, rfl⟩; exact ⟨t, rfl, rfl⟩
      · rintro ⟨t, rfl, rfl⟩; exact ⟨rfl, t, rfl⟩

theorem hasSub_iff (a b : List Char) : hasSub a b = true ↔ ∃ s t, b = s ++ a ++ t := by
  induction b with
  | nil =>
    simp only [hasSub, List.isEmpty_iff]
    constructor
    · rintro rfl; exact ⟨[], [], rfl⟩
    · rintro ⟨s, t, h⟩
      rcases List.append_eq_nil.mp (List.append_eq_nil.mp h.symm).1 with ⟨-, h2⟩
      exact h2
  | cons y ys ih =>
    simp only [hasSub, Bool.or_eq_true, hasPre_iff, ih]
    constructor
    · rintro (⟨t, ht⟩ | ⟨s, t, rfl⟩)
      · exact ⟨[], t, by simpa using ht⟩
      · exact ⟨y :: s, t, rfl⟩
    · rintro ⟨s, t, h⟩
      cases s with
      | nil => exact Or.inl ⟨t, by simpa using h⟩
      | cons z zs =>
        simp only [List.cons_append, List.cons.injEq] at h
        exact Or.inr ⟨zs, t, h.2⟩

/-- C5 -- `matches_keywords T K` is true iff `T` is non-empty and some keyword
`k` in `K` has `k.toLower` occurring as a substring of `T.toLower`; in
particular it is false for empty `T` regardless of `K`. -/
theorem matches_keywords_iff (T : String) (K : List String) :
    matches_keywords T K = true ↔
      T ≠ "" ∧ ∃ k ∈ K, ∃ s t, (pyToLower T).toList = s ++ (pyToLower k).toList ++ t := by
  unfold matches_keywords
  by_cases hT : T = ""
  · simp [hT]
  · simp only [hT, if_false, ne_eq, not_false_eq_true, true_and,
      List.any_eq_true, strContains, hasSub_iff]

/-! ## UTC date formatting (`datetime.fromtimestamp(..., tz=utc).strftime`) -/

/-- Zero-pad a natural number to two digits. -/
def pad2 (n : Nat) : String :=
  if n < 10 then "0" ++ toString n else toString n

/-- Civil calendar date (year, month, day) from a count of days since the
Unix epoch, the standard days-to-civil conversion used by UTC formatting. -/
def civilFromDays (z0 : Int) : Int × Nat × Nat :=
  let z := z0 + 719468
  let era : Int := (if 0 ≤ z then z else z - 146096) / 146097
  let doe : Int := z - era * 146097
  let yoe : Int := (doe - doe / 1460 + doe / 36524 - doe / 146096) / 365
  let y : Int := yoe + era * 400
  let doy : Int := doe - (365 * yoe + yoe / 4 - yoe / 100)
  let mp : Int := (5 * doy + 2) / 153
  let d : Int := doy - (153 * mp + 2) / 5 + 1
  let m : Int := mp + (if mp < 10 then 3 else -9)
  (y + (if m ≤ 2 then 1 else 0), m.toNat, d.toNat)

/-- `strftime('%Y-%m-%d %H:%M:%S')` of a UTC epoch-second timestamp. -/
def format_utc (t : Int) : String :=
  let days := Int.fdiv t 86400
  let secs := (Int.emod t 86400).toNat
  match civilFromDays days with
  | (y, m, d) =>
    toString y ++ "-" ++ pad2 m ++ "-" ++ pad2 d ++ " " ++
      pad2 (secs / 3600) ++ ":" ++ pad2 (secs % 3600 / 60) ++ ":" ++ pad2 (secs % 60)

/-! ## JSON serialization (`json.dumps(..., ensure_ascii=False)`) -/

/-- One hexadecimal digit. -/
def hexDigit (n : Nat) : String :=
  String.singleton (if n < 10 then Char.ofNat (48 + n) else Char.ofNat (87 + n))

/-- JSON escaping of a single character (non-ASCII kept literal, matching
`ensure_ascii=False`). -/
def jsonEscape (c : Char) : String :=
  if c = '"' then "\\\""
  else if c = '\\' then "\\\\"
  else if c = '\n' then "\\n"
  else if c = '\t' then "\\t"
  else if c = '\r' then "\\r"
  else if c = Char.ofNat 8 then "\\b"
  else if c = Char.ofNat 12 then "\\f"
  else if c.toNat < 32 then "\\u00" ++ hexDigit (c.toNat / 16) ++ hexDigit (c.toNat % 16)
  else String.singleton c

/-- A JSON string literal. -/
def jsonString (s : String) : String :=
  "\"" ++ String.join (s.toList.map jsonEscape) ++ "\""

/-! ## Candidate items and extraction (source lines 259-323) -/

/-- A fetched reply (PRAW comment) as read by the extractor: whether it has a
`body` attribute, the body, the nullable author, score and creation time. -/
structure Comment where
  hasBody : Bool
  body : String
  author : Option String
  score : Int
  created_utc : Int
deriving Repr, DecidableEq

/-- A fetched candidate submission as read by the extractor.  The `comments`
field is `none` when expanding/listing the replies raises an exception and
`some cs` when it yields the ordered reply list `cs`. -/
structure Submission where
  id : String
  title : String
  selftext : String
  author : Option String
  score : Int
  created_utc : Int
  subreddit : String
  permalink : String
  link_flair_text : Option String
  num_comments : Int
  comments : Option (List Comment)
deriving Repr, DecidableEq

/-- A kept reply summary, as placed in the `top_comments` list. -/
structure ReplySummary where
  author : String
  body : String
  score : Int
  created_utc : Int
deriving Repr, DecidableEq

/-- The Normalized Record built by `extract_post_data` (the Python dict). -/
structure PostData where
  post_id : String
  title : String
  author : String
  content : String
  upvotes : Int
  timestamp : Int
  date : String
  subreddit : String
  url : String
  flair : String
  comment_count : Int
  top_comments : String
deriving Repr, DecidableEq

/-- Python slicing `s[:n]`: the first `n` code points of `s`. -/
def strSlice (s : String) (n : Nat) : String :=
  ⟨s.toList.take n⟩

/-- `json.dumps` of one reply summary dict (insertion order of the keys). -/
def jsonReply (r : ReplySummary) : String :=
  "\x7b\"author\": " ++ jsonString r.author ++ ", \"body\": " ++ jsonString r.body ++
    ", \"score\": " ++ toString r.score ++ ", \"created_utc\": " ++ toString r.created_utc ++
    "\x7d"

/-- `json.dumps` of the kept reply list. -/
def jsonDumps (rs : List ReplySummary) : String :=
  "[" ++ String.intercalate ", " (rs.map jsonReply) ++ "]"

/-- The per-reply keep/drop decision of the comment loop: a considered reply
is kept iff it has a non-empty body that is not `"[deleted]"` and the body
matches a keyword; the kept summary truncates the body to 500 characters and
maps an absent author to `"[deleted]"`. -/
def keepComment (cfg : Config) (c : Comment) : Option ReplySummary :=
  if c.hasBody && !(c.body == "") && !(c.body == "[deleted]") then
    if matches_keywords c.body cfg.keywords then
      some { author := c.author.getD "[deleted]"
             , body := strSlice c.body 500
             , score := c.score
             , created_utc := c.created_utc }
    else none
  else none

/-- The comment-collection block of `extract_post_data`: an exception while
expanding the replies is caught and yields the empty list; otherwise the
first 5 replies are run through the keep/drop decision. -/
def collectTopComments (cfg : Config) (s : Submission) : List ReplySummary :=
  match s.comments with
  | none => []
  | some cs => (cs.take 5).filterMap (keepComment cfg)

/-- `extract_post_data` from the source: the three disqualifying checks in
order (upvotes, date window, keyword match on title or body), then the
comment collection and the Normalized Record construction. -/
def extract_post_data (cfg : Config) (s : Submission) : Option PostData :=
  if !meets_upvote_threshold cfg s.score then none
  else if !is_in_date_range cfg s.created_utc then none
  else
    let title_match := matches_keywords s.title cfg.keywords
    let content_match := matches_keywords s.selftext cfg.keywords
    if !(title_match || content_match) then none
    else
      let top_comments := collectTopComments cfg s
      let comments_json := if top_comments.isEmpty then "" else jsonDumps top_comments
      some { post_id := s.id
             , title := s.title
             , author := s.author.getD "[deleted]"
             , content := if s.selftext == "" then "" else strSlice s.selftext 2000
             , upvotes := s.score
             , timestamp := s.created_utc
             , date := format_utc s.created_utc
             , subreddit := s.subreddit
             , url := "https://www.reddit.com" ++ s.permalink
             , flair := s.link_flair_text.getD ""
             , comment_count := s.num_comments
             , top_comments := comments_json }

/-- C4 -- `extract_post_data` returns a record iff the candidate passes, in
short-circuit order, the upvote threshold, the date-window check, and the
keyword match on title OR body; the first failing check yields `none`. -/
theorem extract_post_data_isSome_iff (cfg : Config) (s : Submission) :
    (extract_post_data cfg s).isSome = true ↔
      meets_upvote_threshold cfg s.score = true ∧
      is_in_date_range cfg s.created_utc = true ∧
      (matches_keywords s.title cfg.keywords = true ∨
        matches_keywords s.selftext cfg.keywords = true) := by
  unfold extract_post_data
  cases h1 : meets_upvote_threshold cfg s.score <;>
    cases h2 : is_in_date_range cfg s.created_utc <;>
      cases h3 : matches_keywords s.title cfg.keywords <;>
        cases h4 : matches_keywords s.selftext cfg.keywords <;>
          simp [h1, h2, h3, h4]

/-! ## Helper lemmas about `extract_post_data` -/

/-- When all three checks pass, `extract_post_data` builds exactly the record
of the source, with `top_comments` serialized from the kept reply list. -/
theorem extract_eq_of (cfg : Config) (s : Submission)
    (h1 : meets_upvote_threshold cfg s.score = true)
    (h2 : is_in_date_range cfg s.created_utc = true)
    (h3 : (matches_keywords s.title cfg.keywords ||
      matches_keywords s.selftext cfg.keywords) = true) :
    extract_post_data cfg s = some
      { post_id := s.id
        , title := s.title
        , author := s.author.getD "[deleted]"
        , content := if s.selftext == "" then "" else strSlice s.selftext 2000
        , upvotes := s.score
        , timestamp := s.created_utc
        , date := format_utc s.created_utc
        , subreddit := s.subreddit
        , url := "https://www.reddit.com" ++ s.permalink
        , flair := s.link_flair_text.getD ""
        , comment_count := s.num_comments
        , top_comments := if (collectTopComments cfg s).isEmpty then ""
            else jsonDumps (collectTopComments cfg s) } := by
  unfold extract_post_data
  simp [h1, h2, h3]

/-- If `extract_post_data` returned a record then all three checks passed. -/
theorem extract_isSome_inv (cfg : Config) (s : Submission)
    (h : (extract_post_data cfg s).isSome = true) :
    meets_upvote_threshold cfg s.score = true ∧
    is_in_date_range cfg s.created_utc = true ∧
    (matches_keywords s.title cfg.keywords ||
      matches_keywords s.selftext cfg.keywords) = true := by
  unfold extract_post_data at h
  cases h1 : meets_upvote_threshold cfg s.score <;>
    cases h2 : is_in_date_range cfg s.created_utc <;>
      cases h3 : matches_keywords s.title cfg.keywords <;>
        cases h4 : matches_keywords s.selftext cfg.keywords <;>
          simp [h1, h2, h3, h4] at h ⊢

/-- C6 -- For a qualifying candidate, only the first 5 replies are considered;
a considered reply is kept iff its body is non-empty, is not "[deleted]" and
matches a keyword; a kept summary has the body truncated to 500 characters
plus author-or-"[deleted]", score and creation time; the record's replies
field is the serialized kept list, and the empty string when nothing is kept. -/
theorem extract_reply_processing (cfg : Config) (s : Submission)
    (h : (extract_post_data cfg s).isSome = true) :
    (collectTopComments cfg s).length ≤ 5 ∧
    (∀ x ∈ collectTopComments cfg s, x.body.length ≤ 500) ∧
    ((extract_post_data cfg s).map PostData.top_comments =
      some (if (collectTopComments cfg s).isEmpty then ""
        else jsonDumps (collectTopComments cfg s))) ∧
    (∀ cs, s.comments = some cs →
      collectTopComments cfg s = (cs.take 5).filterMap (keepComment cfg)) ∧
    (∀ c : Comment, (keepComment cfg c).isSome = true ↔
      (c.hasBody = true ∧ c.body ≠ "" ∧ c.body ≠ "[deleted]" ∧
        matches_keywords c.body cfg.keywords = true)) ∧
    (∀ c x, keepComment cfg c = some x →
      x.author = c.author.getD "[deleted]" ∧ x.body = strSlice c.body 500 ∧
        x.score = c.score ∧ x.created_utc = c.created_utc) := by
  obtain ⟨h1, h2, h3⟩ := extract_isSome_inv cfg s h
  refine ⟨?_, ?_, ?_, ?_, ?_, ?_⟩
  · cases hc : s.comments with
    | none => simp [collectTopComments, hc]
    | some cs =>
      simp only [collectTopComments, hc]
      calc ((cs.take 5).filterMap (keepComment cfg)).length
          ≤ (cs.take 5).length := List.length_filterMap_le _ _
        _ ≤ 5 := List.length_take_le 5 cs
  · intro x hx
    have hkeep : ∃ c, keepComment cfg c = some x := by
      cases hc : s.comments with
      | none => simp [collectTopComments, hc] at hx
      | some cs =>
        simp only [collectTopComments, hc, List.mem_filterMap] at hx
        obtain ⟨c, -, hcx⟩ := hx
        exact ⟨c, hcx⟩
    obtain ⟨c, hcx⟩ := hkeep
    unfold keepComment at hcx
    by_cases hb : (c.hasBody && !(c.body == "") && !(c.body == "[deleted]")) = true
    · rw [if_pos hb] at hcx
      by_cases hm : matches_keywords c.body cfg.keywords = true
      · rw [if_pos hm] at hcx
        have hxb : x.body = strSlice c.body 500 := by
          cases hcx; rfl
        rw [hxb]
        have hlen : (strSlice c.body 500).length = (c.body.toList.take 500).length := rfl
        rw [hlen]
        exact List.length_take_le 500 c.body.toList
      · rw [if_neg hm] at hcx; cases hcx
    · rw [if_neg hb] at hcx; cases hcx
  · rw [extract_eq_of cfg s h1 h2 h3]
    rfl
  · intro cs hc
    simp [collectTopComments, hc]
  · intro c
    constructor
    · intro hks
      unfold keepComment at hks
      by_cases hcond : (c.hasBody && !(c.body == "") && !(c.body == "[deleted]")) = true
      · by_cases hm : matches_keywords c.body cfg.keywords = true
        · simp only [Bool.and_eq_true, Bool.not_eq_true', beq_eq_false_iff_ne] at hcond
          exact ⟨hcond.1.1, hcond.1.2, hcond.2, hm⟩
        · rw [if_pos hcond, if_neg hm] at hks
          simp at hks
      · rw [if_neg hcond] at hks
        simp at hks
    · rintro ⟨hb, hbe, hbd, hm⟩
      have hcond : (c.hasBody && !(c.body == "") && !(c.body == "[deleted]")) = true := by
        simp [hb, hbe, hbd]
      unfold keepComment
      rw [if_pos hcond, if_pos hm]
      rfl
  · intro c x hcx
    unfold keepComment at hcx
    by_cases hb : (c.hasBody && !(c.body == "") && !(c.body == "[deleted]")) = true
    · rw [if_pos hb] at hcx
      by_cases hm : matches_keywords c.body cfg.keywords = true
      · rw [if_pos hm] at hcx
        cases hcx
        exact ⟨rfl, rfl, rfl, rfl⟩
      · rw [if_neg hm] at hcx; cases hcx
    · rw [if_neg hb] at hcx; cases hcx

/-- C7 -- A reply-expansion exception is not disqualifying: a candidate that
passes all three checks but whose reply expansion raises still yields a
record, with an empty replies field. -/
theorem reply_error_treated_as_zero (cfg : Config) (s : Submission)
    (h1 : meets_upvote_threshold cfg s.score = true)
    (h2 : is_in_date_range cfg s.created_utc = true)
    (h3 : matches_keywords s.title cfg.keywords = true ∨
      matches_keywords s.selftext cfg.keywords = true)
    (hc : s.comments = none) :
    (extract_post_data cfg s).isSome = true ∧
    (extract_post_data cfg s).map PostData.top_comments = some "" := by
  have h3b : (matches_keywords s.title cfg.keywords ||
      matches_keywords s.selftext cfg.keywords) = true := by
    rcases h3 with h3 | h3 <;> simp [h3]
  rw [extract_eq_of cfg s h1 h2 h3b]
  simp [collectTopComments, hc]

/-! ## Concrete sample inputs used by the witnesses -/

/-- A small keyword/window/threshold configuration. -/
def cfgW : Config :=
  { keywords := ["case"], start_date := 0, end_date := 1000, min_upvotes := 5 }

/-- A qualifying submission whose reply expansion raised an exception. -/
def subBroken : Submission :=
  { id := "w1", title := "case opening story", selftext := "", author := some "alice",
    score := 10, created_utc := 500, subreddit := "GlobalOffensive", permalink := "/r/p1",
    link_flair_text := none, num_comments := 3, comments := none }

/-- A qualifying reply used twelve times over. -/
def comW : Comment :=
  { hasBody := true, body := "another case story", author := some "bob",
    score := 2, created_utc := 600 }

/-- A qualifying submission with twelve qualifying replies. -/
def subMany : Submission :=
  { id := "w2", title := "case opening story", selftext := "", author := some "alice",
    score := 10, created_utc := 500, subreddit := "GlobalOffensive", permalink := "/r/p2",
    link_flair_text := none, num_comments := 12,
    comments := some (List.replicate 12 comW) }

/-- Witness for C6 at a candidate with twelve qualifying replies. -/
theorem extract_reply_processing_witness :
    (extract_post_data cfgW subMany).isSome = true ∧
    (collectTopComments cfgW subMany).length ≤ 5 :=
  ⟨by decide, (extract_reply_processing cfgW subMany (by decide)).1⟩

/-- Witness for C7 at a qualifying candidate whose reply expansion failed. -/
theorem reply_error_treated_as_zero_witness :
    meets_upvote_threshold cfgW subBroken.score = true ∧
    is_in_date_range cfgW subBroken.created_utc = true ∧
    matches_keywords cfgW.keywords.head! cfgW.keywords = true ∧
    matches_keywords subBroken.title cfgW.keywords = true ∧
    subBroken.comments = none ∧
    ((extract_post_data cfgW subBroken).isSome = true ∧
      (extract_post_data cfgW subBroken).map PostData.top_comments = some "") :=
  ⟨by decide, by decide, by decide, by decide, rfl,
    reply_error_treated_as_zero cfgW subBroken (by decide) (by decide)
      (Or.inl (by decide)) rfl⟩

/-! ## Cross-group deduplication (source lines 474-480 of `main`) -/

/-- The dedupe loop of `main`, with its `seen_ids` accumulator. -/
def removeDuplicatesAux (seen : List String) : List PostData → List PostData
  | [] => []
  | p :: rest =>
    if seen.contains p.post_id then removeDuplicatesAux seen rest
    else p :: removeDuplicatesAux (p.post_id :: seen) rest

/-- The duplicate removal of `main`: keep a post only when its `post_id` has
not been seen before. -/
def removeDuplicates (posts : List PostData) : List PostData :=
  removeDuplicatesAux [] posts

/-- Modelled from the spec's words for comparison: retain only the first
occurrence of each identity, preserving the original encounter order. -/
def specDedup : List PostData → List PostData
  | [] => []
  | p :: rest => p :: specDedup (rest.filter fun q => !(q.post_id == p.post_id))
termination_by l => l.length
decreasing_by
  simp only [List.length_cons]
  exact Nat.lt_succ_of_le (List.length_filter_le _ _)

theorem specDedup_cons (p : PostData) (l : List PostData) :
    specDedup (p :: l) = p :: specDedup (l.filter fun q => !(q.post_id == p.post_id)) := by
  rw [specDedup]

theorem removeDuplicatesAux_eq (seen : List String) (l : List PostData) :
    removeDuplicatesAux seen l =
      specDedup (l.filter fun p => !(seen.contains p.post_id)) := by
  induction l generalizing seen with
  | nil => simp [removeDuplicatesAux, specDedup]
  | cons p rest ih =>
    cases hp : seen.contains p.post_id with
    | true =>
      have hmem : p.post_id ∈ seen := by simpa using hp
      rw [removeDuplicatesAux, if_pos hp, ih seen]
      congr 1
      simp [List.filter_cons, hmem]
    | false =>
      have hnotin : ¬ (seen.contains p.post_id = true) := by
        rw [hp]; exact Bool.false_ne_true
      have hstep :
          List.filter (fun q : PostData => !((p.post_id :: seen).contains q.post_id)) rest =
            List.filter (fun q : PostData => !(q.post_id == p.post_id))
              (List.filter (fun q : PostData => !(seen.contains q.post_id)) rest) := by
        rw [List.filter_filter]
        apply List.filter_congr
        intro q _
        simp only [List.contains_cons, Bool.not_or]
      have hmem : p.post_id ∉ seen := by simpa using hp
      have hrhs :
          List.filter (fun q : PostData => !(seen.contains q.post_id)) (p :: rest) =
            p :: List.filter (fun q : PostData => !(seen.contains q.post_id)) rest := by
        simp [List.filter_cons, hmem]
      rw [removeDuplicatesAux, if_neg hnotin, ih (p.post_id :: seen), hstep, hrhs,
        specDedup_cons]

/-- C3 -- The cross-group deduplication of `main` retains exactly the first
occurrence of each `post_id`, preserving encounter order (it equals the
first-occurrence-wins reference function); on records with identities
`[a, b, a, c, b]` it yields identities `[a, b, c]` in that order. -/
theorem removeDuplicates_first_occurrence :
    (∀ l : List PostData, removeDuplicates l = specDedup l) ∧
    (removeDuplicates
        (["a", "b", "a", "c", "b"].map fun i =>
          { post_id := i, title := "", author := "", content := "", upvotes := 0,
            timestamp := 0, date := "", subreddit := "", url := "", flair := "",
            comment_count := 0, top_comments := "" })).map PostData.post_id =
      ["a", "b", "c"] := by
  constructor
  · intro l
    rw [removeDuplicates, removeDuplicatesAux_eq]
    congr 1
    apply List.filter_eq_self.mpr
    intro q _
    rfl
  · decide

/-! ## Incremental CSV persistence (source lines 382-442)

`save_to_csv` is embedded with the file system made explicit: the `existing`
argument is the dataset currently at the target path (`none` when no file
exists), and the result is `Except.error ()` when the function re-raises an
exception, `Except.ok none` when it returns without touching the file, and
`Except.ok (some rows)` when it writes `rows` as the new file contents. -/

/-- An input record handed to `save_to_csv`: a Python dict from column name
to cell value (CSV cells are strings). -/
abbrev Record := List (String × String)

/-- The fixed `column_order` list of the source. -/
def column_order : List String :=
  ["post_id", "title", "author", "content", "upvotes", "timestamp", "date",
   "subreddit", "url", "flair", "comment_count", "top_comments"]

/-- One row of the persisted dataset, one cell per fixed column. -/
structure Row where
  post_id : String
  title : String
  author : String
  content : String
  upvotes : String
  timestamp : String
  date : String
  subreddit : String
  url : String
  flair : String
  comment_count : String
  top_comments : String
deriving Repr, DecidableEq

/-- `str(post['post_id'])` with a missing key defaulting (used only where the
key is known to be present). -/
def getPostId (p : Record) : String :=
  (List.lookup "post_id" p).getD ""

/-- Projection of a record dict onto the fixed schema in the fixed order: a
key absent from the record yields an empty cell (pandas stores NaN for a
value missing in a row and `to_csv` writes it as an empty cell, and the
`df[col] = ''` loop fills a column missing from every record). -/
def toRow (p : Record) : Row :=
  { post_id := (List.lookup "post_id" p).getD ""
    , title := (List.lookup "title" p).getD ""
    , author := (List.lookup "author" p).getD ""
    , content := (List.lookup "content" p).getD ""
    , upvotes := (List.lookup "upvotes" p).getD ""
    , timestamp := (List.lookup "timestamp" p).getD ""
    , date := (List.lookup "date" p).getD ""
    , subreddit := (List.lookup "subreddit" p).getD ""
    , url := (List.lookup "url" p).getD ""
    , flair := (List.lookup "flair" p).getD ""
    , comment_count := (List.lookup "comment_count" p).getD ""
    , top_comments := (List.lookup "top_comments" p).getD "" }

/-- The duplicate filter of the append path
(`[post for post in posts_data if str(post['post_id']) not in existing_ids]`):
keeps the input order, drops records whose identity is already present, and
raises (`KeyError`) when a record has no `post_id` key. -/
def filterNewPosts (existing_ids : List String) : List Record → Except Unit (List Record)
  | [] => .ok []
  | p :: rest =>
    match List.lookup "post_id" p with
    | none => .error ()
    | some pid =>
      match filterNewPosts existing_ids rest with
      | .error e => .error e
      | .ok r => .ok (if existing_ids.contains pid then r else p :: r)

/-- `save_to_csv` from the source.  Fresh-file path: every record is written
through the fixed schema (missing columns filled empty).  Append path: the
existing identities are collected, the new records are filtered, and if any
remain they are appended after the existing rows; `new_df[column_order]`
raises a `KeyError` when one of the fixed columns is absent from every
remaining new record, and the raised error is logged and re-raised. -/
def save_to_csv (posts_data : List Record) (existing : Option (List Row)) :
    Except Unit (Option (List Row)) :=
  if posts_data.isEmpty then .ok none
  else
    match existing with
    | none => .ok (some (posts_data.map toRow))
    | some existingRows =>
      let existing_ids := existingRows.map Row.post_id
      match filterNewPosts existing_ids posts_data with
      | .error e => .error e
      | .ok new_posts =>
        if new_posts.isEmpty then .ok none
        else if column_order.all (fun c => new_posts.any fun p => (List.lookup c p).isSome) then
          .ok (some (existingRows ++ new_posts.map toRow))
        else .error ()

/-- When every record carries its `post_id`, the duplicate filter returns
exactly the records whose identity is not among `existing_ids`, in order. -/
theorem filterNewPosts_eq (existing_ids : List String) (posts : List Record)
    (h : ∀ p ∈ posts, (List.lookup "post_id" p).isSome = true) :
    filterNewPosts existing_ids posts =
      .ok (posts.filter fun p => !(existing_ids.contains (getPostId p))) := by
  induction posts with
  | nil => rfl
  | cons p rest ih =>
    have hp : (List.lookup "post_id" p).isSome = true := h p (by simp)
    obtain ⟨pid, hpid⟩ := Option.isSome_iff_exists.mp hp
    have hrest := ih fun q hq => h q (by simp [hq])
    rw [filterNewPosts, hpid, hrest]
    have hgp : getPostId p = pid := by simp [getPostId, hpid]
    cases hc : existing_ids.contains pid with
    | true => simp [List.filter_cons, hgp, hc]
    | false => simp [List.filter_cons, hgp, hc]

/-- Unfolding equation of `save_to_csv` for a fresh file. -/
theorem save_to_csv_none_eq (posts : List Record) (hemp : posts.isEmpty = false) :
    save_to_csv posts none = .ok (some (posts.map toRow)) := by
  unfold save_to_csv
  simp only [hemp, Bool.false_eq_true, if_false]

/-- Unfolding equation of `save_to_csv` for an existing file. -/
theorem save_to_csv_some_eq (posts : List Record) (oldRows : List Row)
    (hemp : posts.isEmpty = false) :
    save_to_csv posts (some oldRows) =
      match filterNewPosts (oldRows.map Row.post_id) posts with
      | .error e => .error e
      | .ok new_posts =>
        if new_posts.isEmpty then .ok none
        else if column_order.all (fun c => new_posts.any fun p => (List.lookup c p).isSome) then
          .ok (some (oldRows ++ new_posts.map toRow))
        else .error () := by
  unfold save_to_csv
  simp only [hemp, Bool.false_eq_true, if_false]

/-- C10 -- Calling `save_to_csv` with an empty record list returns at once:
a non-existent output file stays absent and an existing dataset is left
entirely unchanged. -/
theorem save_to_csv_empty_input (existing : Option (List Row)) :
    save_to_csv [] existing = .ok none := rfl

/-- C1 -- Against an existing dataset, `save_to_csv` writes exactly the
existing rows, unchanged and in order, followed by those input records whose
`post_id` is not among the existing identities, in input order; when every
input identity is already present the file is left untouched. -/
theorem save_to_csv_merge (posts : List Record) (rows : List Row)
    (hne : posts ≠ [])
    (hcomp : ∀ p ∈ posts, ∀ c ∈ column_order, (List.lookup c p).isSome = true) :
    save_to_csv posts (some rows) =
      .ok (if posts.filter (fun p => !((rows.map Row.post_id).contains (getPostId p))) = []
        then none
        else some (rows ++
          (posts.filter fun p => !((rows.map Row.post_id).contains (getPostId p))).map toRow)) := by
  have hpid : ∀ p ∈ posts, (List.lookup "post_id" p).isSome = true := by
    intro p hp
    exact hcomp p hp "post_id" (by simp [column_order])
  have hemp : posts.isEmpty = false := by
    cases posts with
    | nil => exact absurd rfl hne
    | cons a l => rfl
  rw [save_to_csv_some_eq posts rows hemp, filterNewPosts_eq _ _ hpid]
  set fresh := posts.filter fun p => !((rows.map Row.post_id).contains (getPostId p)) with hfresh
  cases hfe : fresh.isEmpty with
  | true =>
    have : fresh = [] := by simpa using hfe
    simp [this]
  | false =>
    have hfne : fresh ≠ [] := by
      intro hcon
      rw [hcon] at hfe
      exact absurd hfe (by simp)
    obtain ⟨q, hq⟩ := List.exists_mem_of_ne_nil fresh hfne
    have hqposts : q ∈ posts := List.mem_of_mem_filter hq
    have hcov : column_order.all (fun c => fresh.any fun p => (List.lookup c p).isSome) = true := by
      rw [List.all_eq_true]
      intro c hc
      rw [List.any_eq_true]
      exact ⟨q, hq, hcomp q hqposts c hc⟩
    simp [hfe, hcov, hfne]

/-- C2 -- Persisting is idempotent: once a call to `save_to_csv` has produced
a dataset, calling it again with the same records against that dataset adds
zero rows and leaves the file untouched. -/
theorem save_to_csv_idempotent (posts : List Record) (existing : Option (List Row))
    (rows : List Row)
    (hpid : ∀ p ∈ posts, (List.lookup "post_id" p).isSome = true)
    (h : save_to_csv posts existing = .ok (some rows)) :
    save_to_csv posts (some rows) = .ok none := by
  have hemp : posts.isEmpty = false := by
    cases hpe : posts.isEmpty with
    | true =>
      unfold save_to_csv at h
      rw [hpe] at h
      simp at h
    | false => rfl
  have hall : ∀ p ∈ posts, (rows.map Row.post_id).contains (getPostId p) = true := by
    cases existing with
    | none =>
      rw [save_to_csv_none_eq posts hemp] at h
      simp only [Except.ok.injEq, Option.some.injEq] at h
      intro p hp
      have : getPostId p ∈ (posts.map toRow).map Row.post_id := by
        rw [List.map_map]
        exact List.mem_map_of_mem _ hp
      rw [← h]
      simpa using this
    | some old =>
      rw [save_to_csv_some_eq posts old hemp, filterNewPosts_eq _ _ hpid] at h
      simp only at h
      set fresh := posts.filter
        (fun p => !((old.map Row.post_id).contains (getPostId p))) with hfresh
      cases hfe : fresh.isEmpty with
      | true => rw [hfe] at h; simp at h
      | false =>
        rw [hfe] at h
        simp only [Bool.false_eq_true, if_false] at h
        cases hcov : column_order.all
            (fun c => fresh.any fun p => (List.lookup c p).isSome) with
        | false => rw [hcov] at h; simp at h
        | true =>
          rw [hcov] at h
          simp only [if_true, Except.ok.injEq, Option.some.injEq] at h
          intro p hp
          rw [← h]
          cases hm : (old.map Row.post_id).contains (getPostId p) with
          | true =>
            have : getPostId p ∈ old.map Row.post_id := by simpa using hm
            simp [List.map_append, this]
          | false =>
            have hpf : p ∈ fresh := by
              rw [hfresh, List.mem_filter]
              exact ⟨hp, by simp only [hm]; rfl⟩
            have hmm : getPostId p ∈ (fresh.map toRow).map Row.post_id := by
              rw [List.map_map]
              exact List.mem_map_of_mem _ hpf
            have hmem : getPostId p ∈ (old ++ fresh.map toRow).map Row.post_id := by
              rw [List.map_append]
              exact List.mem_append_right _ hmm
            simpa using hmem
  have hnil : posts.filter (fun p => !((rows.map Row.post_id).contains (getPostId p))) = [] := by
    rw [List.filter_eq_nil_iff]
    intro p hp
    simp only [hall p hp]
    simp
  rw [save_to_csv_some_eq posts rows hemp, filterNewPosts_eq _ _ hpid, hnil]
  rfl

/-! ## Concrete records for the persistence witnesses -/

/-- A complete 12-column record with identity `i`. -/
def sampleRec (i : String) : Record :=
  [("post_id", i), ("title", "case opening " ++ i), ("author", "alice"),
   ("content", "body"), ("upvotes", "7"), ("timestamp", "500"),
   ("date", "1970-01-01 00:08:20"), ("subreddit", "csgo"), ("url", "https://u"),
   ("flair", ""), ("comment_count", "2"), ("top_comments", "")]

/-- Witness for C1: dataset `{x, y}` merged with batch `{y, z}` keeps `y`'s
original row and appends `z` at the end. -/
theorem save_to_csv_merge_witness :
    ([sampleRec "y", sampleRec "z"] : List Record) ≠ [] ∧
    save_to_csv [sampleRec "y", sampleRec "z"]
        (some [toRow (sampleRec "x"), toRow (sampleRec "y")]) =
      .ok (some [toRow (sampleRec "x"), toRow (sampleRec "y"), toRow (sampleRec "z")]) :=
  ⟨by decide,
    (save_to_csv_merge [sampleRec "y", sampleRec "z"]
        [toRow (sampleRec "x"), toRow (sampleRec "y")] (by decide) (by decide)).trans
      (by rfl)⟩

/-- Witness for C2: persisting `{y}` twice adds nothing on the second call. -/
theorem save_to_csv_idempotent_witness :
    save_to_csv [sampleRec "y"] none = .ok (some [toRow (sampleRec "y")]) ∧
    save_to_csv [sampleRec "y"] (some [toRow (sampleRec "y")]) = .ok none :=
  ⟨rfl,
    save_to_csv_idempotent [sampleRec "y"] none [toRow (sampleRec "y")]
      (by decide) (by rfl)⟩

/-- C8 (code bug) -- The schema-completion contract holds on the fresh-file
path (first conjunct: the missing 11 columns are created empty), but fails on
the append path: a fixed column absent from every new record makes
`new_df[column_order]` raise a `KeyError`, which `save_to_csv` re-raises
instead of filling the column (second conjunct). -/
theorem save_to_csv_missing_column :
    save_to_csv [[("post_id", "z")]] none =
      .ok (some [toRow [("post_id", "z")]]) ∧
    toRow [("post_id", "z")] =
      { post_id := "z"
        , title := ""
        , author := ""
        , content := ""
        , upvotes := ""
        , timestamp := ""
        , date := ""
        , subreddit := ""
        , url := ""
        , flair := ""
        , comment_count := ""
        , top_comments := "" } ∧
    save_to_csv [[("post_id", "z")]] (some [toRow (sampleRec "x")]) = .error () := by
  exact ⟨rfl, rfl, rfl⟩

/-! ## Retrying API calls (source lines 130-187) and the per-keyword loop
(source lines 350-372)

`safe_api_call` is embedded over the sequence of attempt outcomes; the value
returned is the chronological list of `time.sleep` durations performed
(`rate_limit_delay()` before each attempt, then any error-branch wait)
together with the call's result.  Durations are exact rationals. -/

/-- Python `s.upper()`, characterwise uppercasing. -/
def pyToUpper (s : String) : String :=
  ⟨s.toList.map Char.toUpper⟩

/-- The three exception classes `safe_api_call` distinguishes: Reddit API
errors, client errors, and unexpected errors. -/
inductive ApiErr
  | api (msg : String)
  | client (msg : String)
  | other (msg : String)
deriving Repr, DecidableEq

/-- The rate-limit test on an API error message:
`"RATE_LIMIT" in message.upper() or "429" in message`. -/
def isRateLimitMsg (msg : String) : Bool :=
  strContains (pyToUpper msg) "RATE_LIMIT" || strContains msg "429"

/-- The extra sleep done by the `except` branch handling a failure of 0-based
attempt `attempt`: a rate-limited API error waits `retry_delay * (attempt+1)`,
a non-rate-limited API error retries with no extra wait, and client errors or
unexpected errors wait the constant `retry_delay`. -/
def attemptSleep (retry_delay : ℚ) (attempt : Nat) : ApiErr → List ℚ
  | .api msg => if isRateLimitMsg msg then [retry_delay * ((attempt : ℚ) + 1)] else []
  | .client _ => [retry_delay]
  | .other _ => [retry_delay]

/-- The retry loop of `safe_api_call`: `fuel` remaining attempts starting at
index `attempt`, `last` the last exception seen.  When every attempt fails,
`last_exception` is re-raised (`Except.error none` models the loop never
having run). -/
def safeApiCallGo {A : Type} (request_delay retry_delay : ℚ)
    (outcomes : Nat → Except ApiErr A) :
    Nat → Nat → Option ApiErr → List ℚ × Except (Option ApiErr) A
  | 0, _, last => ([], .error last)
  | fuel + 1, attempt, _ =>
    match outcomes attempt with
    | .ok a => ([request_delay], .ok a)
    | .error e =>
      let rest := safeApiCallGo request_delay retry_delay outcomes fuel (attempt + 1) (some e)
      (request_delay :: (attemptSleep retry_delay attempt e ++ rest.1), rest.2)

/-- `safe_api_call` with `max_retries` attempts over the given outcomes. -/
def safe_api_call {A : Type} (max_retries : Nat) (request_delay retry_delay : ℚ)
    (outcomes : Nat → Except ApiErr A) : List ℚ × Except (Option ApiErr) A :=
  safeApiCallGo request_delay retry_delay outcomes max_retries 0 none

/-- The per-keyword loop of `search_subreddit`: each keyword's query either
raises (the error from `safe_api_call`, caught and logged by the
`except ... continue` of the loop) or yields submissions that are run through
`extract_post_data`, the qualifying records being appended in order. -/
def search_subreddit (cfg : Config)
    (keyword_results : List (Except (Option ApiErr) (List Submission))) : List PostData :=
  keyword_results.foldl
    (fun posts_data r =>
      match r with
      | .error _ => posts_data
      | .ok subs => posts_data ++ subs.filterMap (extract_post_data cfg))
    []

/-- When every attempt fails, the sleep trace is the per-attempt schedule of
`attemptSleep` and the raised error is the last attempt's exception. -/
theorem safeApiCallGo_allfail {A : Type} (rq rd : ℚ) (es : Nat → ApiErr) :
    ∀ (fuel start : Nat) (last : Option ApiErr),
      @safeApiCallGo A rq rd (fun i => Except.error (es i)) (fuel + 1) start last =
        ((List.range' start (fuel + 1)).foldr
            (fun i acc => rq :: (attemptSleep rd i (es i) ++ acc)) [],
          Except.error (some (es (start + fuel)))) := by
  intro fuel
  induction fuel with
  | zero =>
    intro start last
    rfl
  | succ n ih =>
    intro start last
    rw [safeApiCallGo]
    simp only
    rw [ih (start + 1) (some (es start))]
    simp only [List.range'_succ, List.foldr_cons]
    have h : start + 1 + n = start + (n + 1) := by omega
    rw [h]

/-- C9 (counterexample) -- The claimed backoff law fails: when every attempt
raises a client (network) error, `safe_api_call` with base retry delay 5 and
request delay 1 sleeps the constant 5 after each of the three failed attempts
(full trace `[1, 5, 1, 5, 1, 5]`), whereas an attempt-indexed multiple of the
base delay would require the second failed attempt to wait `5 * 2 = 10`; the
trace differs from `[1, 5 * 1, 1, 5 * 2, 1, 5 * 3]`. -/
theorem safe_api_call_backoff_counterexample :
    (@safe_api_call Nat 3 1 5 (fun _ => Except.error (ApiErr.client "network down"))) =
      ([1, 5, 1, 5, 1, 5], Except.error (some (ApiErr.client "network down"))) ∧
    ([1, 5, 1, 5, 1, 5] : List ℚ) ≠ [1, 5 * 1, 1, 5 * 2, 1, 5 * 3] := by
  constructor
  · rfl
  · intro hcon
    simp only [List.cons.injEq] at hcon
    norm_num at hcon

/-- C9 (amended) -- The backoff as implemented: rate-limited API failures
wait `retry_delay * (attempt+1)`, non-rate-limited API failures retry with no
extra wait, client and unexpected failures wait the constant `retry_delay`;
when all attempts fail the last exception is raised to the caller; and a
keyword whose query fails is skipped without aborting the remaining
keywords' results. -/
theorem safe_api_call_amended (request_delay retry_delay : ℚ) :
    (∀ (attempt : Nat) (msg : String), isRateLimitMsg msg = true →
      attemptSleep retry_delay attempt (ApiErr.api msg) =
        [retry_delay * ((attempt : ℚ) + 1)]) ∧
    (∀ (attempt : Nat) (msg : String), isRateLimitMsg msg = false →
      attemptSleep retry_delay attempt (ApiErr.api msg) = []) ∧
    (∀ (attempt : Nat) (msg : String),
      attemptSleep retry_delay attempt (ApiErr.client msg) = [retry_delay] ∧
      attemptSleep retry_delay attempt (ApiErr.other msg) = [retry_delay]) ∧
    (∀ (n : Nat) (es : Nat → ApiErr),
      @safe_api_call Nat (n + 1) request_delay retry_delay (fun i => Except.error (es i)) =
        ((List.range (n + 1)).foldr
            (fun i acc => request_delay :: (attemptSleep retry_delay i (es i) ++ acc)) [],
          Except.error (some (es n)))) ∧
    (∀ (cfg : Config) (rs1 rs2 : List (Except (Option ApiErr) (List Submission)))
      (e : Option ApiErr),
      search_subreddit cfg (rs1 ++ Except.error e :: rs2) =
        search_subreddit cfg (rs1 ++ rs2)) := by
  refine ⟨?_, ?_, ?_, ?_, ?_⟩
  · intro attempt msg h
    simp [attemptSleep, h]
  · intro attempt msg h
    simp [attemptSleep, h]
  · intro attempt msg
    exact ⟨rfl, rfl⟩
  · intro n es
    rw [safe_api_call, safeApiCallGo_allfail request_delay retry_delay es n 0 none,
      List.range_eq_range']
    simp
  · intro cfg rs1 rs2 e
    unfold search_subreddit
    rw [List.foldl_append, List.foldl_append, List.foldl_cons]

/-- Witness for the amended C9 at a concrete rate-limited failure message. -/
theorem safe_api_call_amended_witness :
    isRateLimitMsg "received 429 too many requests" = true ∧
    attemptSleep 5 1 (ApiErr.api "received 429 too many requests") =
      [5 * (((1 : Nat) : ℚ) + 1)] :=
  ⟨by decide,
    (safe_api_call_amended 1 5).1 1 "received 429 too many requests" (by decide)⟩

end RedditScraper
